import Mathlib

/-!
Verification of the WebSocket server core found in this repository
(two near-duplicate variants of a `WebSocketServer` class).

Modelling conventions:
* A transport chunk (Node `Buffer`) is a `List Nat` of byte values.
* A JS string is a `List Nat` of UTF-16 code units.  All the header
  matching done by the source compares ASCII substrings, and the
  `data.toString()` UTF-8 decode maps every ASCII byte to itself and
  never produces an ASCII code unit from a non-ASCII byte, so chunks
  are carried into string operations unchanged, byte = code unit.
* Out-of-range `Buffer` indexing yields `undefined`, which JS
  coerces to `0` inside `^` and `&`; this is modelled with `List.getD _ _ 0`.
-/

namespace WebSocketServer

/-- Code units of a Lean string literal, used to transcribe the string
literals of the JS source. -/
def strCodes (s : String) : List Nat :=
  s.data.map Char.toNat

/-! ### SHA-1 (the `crypto.createHash('sha1')` dependency)

A byte-level SHA-1, needed by `generateServerKey`.  Words are `Nat`
kept below `2 ^ 32` by explicit `% 4294967296`. -/

/-- Rotate a 32-bit word left by `n` bits. -/
def rotl (n x : Nat) : Nat :=
  ((x <<< n) % 4294967296) ||| ((x % 4294967296) >>> (32 - n))

/-- The SHA-1 round constant for round `t`. -/
def sha1K (t : Nat) : Nat :=
  if t < 20 then 0x5A827999
  else if t < 40 then 0x6ED9EBA1
  else if t < 60 then 0x8F1BBCDC
  else 0xCA62C1D6

/-- The SHA-1 round function for round `t`. -/
def sha1F (t b c d : Nat) : Nat :=
  if t < 20 then (b &&& c) ||| ((b ^^^ 0xFFFFFFFF) &&& d)
  else if t < 40 then b ^^^ c ^^^ d
  else if t < 60 then (b &&& c) ||| (b &&& d) ||| (c &&& d)
  else b ^^^ c ^^^ d

/-- Big-endian 64-bit encoding of `n`, as 8 bytes. -/
def bigEndian64 (n : Nat) : List Nat :=
  [n / 72057594037927936 % 256, n / 281474976710656 % 256,
   n / 1099511627776 % 256, n / 4294967296 % 256,
   n / 16777216 % 256, n / 65536 % 256, n / 256 % 256, n % 256]

/-- SHA-1 message padding: append `0x80`, zeros to 56 mod 64, and the
bit length as a big-endian 64-bit integer. -/
def sha1Pad (msg : List Nat) : List Nat :=
  msg ++ [128] ++ List.replicate ((119 - msg.length % 64) % 64) 0
      ++ bigEndian64 (8 * msg.length)

/-- Group bytes into big-endian 32-bit words. -/
def bytesToWords : List Nat → List Nat
  | a :: b :: c :: d :: rest => (((a * 256 + b) * 256 + c) * 256 + d) :: bytesToWords rest
  | _ => []

/-- Split a byte list into 64-byte blocks (the input length is always a
multiple of 64 after padding). -/
def toBlocks (l : List Nat) : List (List Nat) :=
  (List.range (l.length / 64)).map (fun i => ((l.drop (64 * i)).take 64))

/-- Message-schedule extension: prepend `n` more words to the reversed
schedule `acc`, each `rotl 1` of the XOR of the words 3, 8, 14 and 16
positions back. -/
def extendLoop : Nat → List Nat → List Nat
  | 0, acc => acc
  | n + 1, acc =>
      extendLoop n
        (rotl 1 ((acc.getD 2 0) ^^^ (acc.getD 7 0) ^^^ (acc.getD 13 0) ^^^ (acc.getD 15 0)) :: acc)

/-- The 80-word message schedule of one 64-byte block. -/
def schedule (block : List Nat) : List Nat :=
  (extendLoop 64 (bytesToWords block).reverse).reverse

/-- One SHA-1 compression round. -/
def sha1Step (st : Nat × Nat × Nat × Nat × Nat) (t w : Nat) :
    Nat × Nat × Nat × Nat × Nat :=
  let (a, b, c, d, e) := st
  ((rotl 5 a + sha1F t b c d + e + sha1K t + w) % 4294967296, a, rotl 30 b, c, d)

/-- Process one 64-byte block, updating the five-word chaining state. -/
def processBlock (h : List Nat) (block : List Nat) : List Nat :=
  let h0 := h.getD 0 0
  let h1 := h.getD 1 0
  let h2 := h.getD 2 0
  let h3 := h.getD 3 0
  let h4 := h.getD 4 0
  let fin := (schedule block).enum.foldl
    (fun st p => sha1Step st p.1 p.2) (h0, h1, h2, h3, h4)
  [(h0 + fin.1) % 4294967296, (h1 + fin.2.1) % 4294967296,
   (h2 + fin.2.2.1) % 4294967296, (h3 + fin.2.2.2.1) % 4294967296,
   (h4 + fin.2.2.2.2) % 4294967296]

/-- SHA-1 digest of a byte list, as 20 bytes. -/
def sha1 (msg : List Nat) : List Nat :=
  ((toBlocks (sha1Pad msg)).foldl processBlock
      [0x67452301, 0xEFCDAB89, 0x98BADCFE, 0x10325476, 0xC3D2E1F0]).flatMap
    (fun w => [w / 16777216 % 256, w / 65536 % 256, w / 256 % 256, w % 256])

/-! ### Base64 (the `.digest('base64')` dependency) -/

/-- The code unit of base64 alphabet entry `n`. -/
def b64Char (n : Nat) : Nat :=
  if n < 26 then 65 + n
  else if n < 52 then 97 + (n - 26)
  else if n < 62 then 48 + (n - 52)
  else if n = 62 then 43
  else 47

/-- Standard base64 encoding of a byte list, with `=` padding, as code
units. -/
def b64 : List Nat → List Nat
  | a :: b :: c :: rest =>
      let x := (a * 256 + b) * 256 + c
      b64Char (x / 262144) :: b64Char (x / 4096 % 64) :: b64Char (x / 64 % 64)
        :: b64Char (x % 64) :: b64 rest
  | [a, b] =>
      let x := (a * 256 + b) * 4
      [b64Char (x / 4096), b64Char (x / 64 % 64), b64Char (x % 64), 61]
  | [a] =>
      let x := a * 16
      [b64Char (x / 64), b64Char (x % 64), 61, 61]
  | [] => []

/-! ### The accept-key derivation (`generateServerKey` in both variants) -/

/-- The fixed protocol GUID of the source. -/
def guid : List Nat := strCodes "258EAFA5-E914-47DA-95CA-C5AB0DC85B11"

/-- `generateServerKey(key)`: base64 of the SHA-1 digest of
`key + guid`.  Node hashes the string under the `binary` (latin1)
encoding, which takes the low byte of every code unit. -/
def generateServerKey (key : List Nat) : List Nat :=
  b64 (sha1 ((key ++ guid).map (· % 256)))

/-! ### Header-line handling (`data.toString().split('\n')` and friends) -/

/-- JS `String.prototype.split('\n')`: split on every newline code
unit, never merging separators; the result is always nonempty. -/
def splitOnNl : List Nat → List (List Nat)
  | [] => [[]]
  | c :: rest =>
      if c = 10 then [] :: splitOnNl rest
      else
        match splitOnNl rest with
        | [] => [[c]]
        | h :: t => (c :: h) :: t

/-- JS `String.prototype.startsWith`: `pat` is an initial segment of
the second argument. -/
def startsWithL : List Nat → List Nat → Bool
  | [], _ => true
  | _ :: _, [] => false
  | p :: ps, c :: cs => p == c && startsWithL ps cs

/-- JS `String.prototype.includes`: `pat` occurs as a contiguous
segment of the second argument. -/
def hasSub (pat : List Nat) : List Nat → Bool
  | [] => startsWithL pat []
  | c :: cs => startsWithL pat (c :: cs) || hasSub pat cs

/-! ### Classification (`#isHttp`, `#isSocketUpgradeRequest`, and the
branch structure of `#generateServerReply`) -/

/-- `#isHttp(data)`: the first newline-delimited line of the chunk
contains the substring `HTTP/1.1`. -/
def isHttp (data : List Nat) : Bool :=
  hasSub (strCodes "HTTP/1.1") ((splitOnNl data).getD 0 [])

/-- `#isSocketUpgradeRequest(data)`: the `forEach` loop sets a flag
whenever a line contains `Upgrade: websocket`; modelled as the same
left fold over the lines. -/
def isSocketUpgradeRequest (data : List Nat) : Bool :=
  (splitOnNl data).foldl
    (fun isUpgrade headerLine =>
      if hasSub (strCodes "Upgrade: websocket") headerLine then true else isUpgrade)
    false

/-- The three routes a chunk can take through `#generateServerReply`. -/
inductive ChunkClass
  | UpgradeRequest
  | PlainHttp
  | DataFrame
deriving DecidableEq

/-- The branch structure of `#generateServerReply` (part_000 variant):
HTTP and upgrade goes to the handshake, HTTP without upgrade is logged
only, everything else is treated as a data frame. -/
def classify (data : List Nat) : ChunkClass :=
  if isHttp data then
    if isSocketUpgradeRequest data then ChunkClass.UpgradeRequest
    else ChunkClass.PlainHttp
  else ChunkClass.DataFrame

/-! ### The handshake negotiator (`#generateHandshakeMsg`) -/

/-- The header name the negotiator scans for. -/
def keyPat : List Nat := strCodes "Sec-WebSocket-Key:"

/-- The slicing rule of the source: `headerLine.substr(19).slice(0, -1)`
drops the 18-character header name plus the following space, then the
final character (the `\r` of a CRLF request). -/
def extractKey (headerLine : List Nat) : List Nat :=
  (headerLine.drop 19).dropLast

/-- The `forEach` loop of `#generateHandshakeMsg`: `clientKey` starts
`null` and is overwritten by every line starting with
`Sec-WebSocket-Key:`; modelled as the same left fold. -/
def findClientKey (data : List Nat) : Option (List Nat) :=
  (splitOnNl data).foldl
    (fun clientKey headerLine =>
      if startsWithL keyPat headerLine then some (extractKey headerLine) else clientKey)
    none

/-- The literal rejection response. -/
def badRequest : List Nat := strCodes "HTTP/1.1 400 Bad Request"

/-- The success response of the part_000 variant: CRLF line
terminators and a final blank line. -/
def successMsg (clientKey : List Nat) : List Nat :=
  strCodes "HTTP/1.1 101 Switching Protocols\r\nUpgrade: websocket\r\nConnection: Upgrade\r\nSec-WebSocket-Accept: "
    ++ generateServerKey clientKey ++ strCodes "\r\n\r\n"

/-- `#generateHandshakeMsg` of the part_000 variant. -/
def generateHandshakeMsg (data : List Nat) : List Nat :=
  match findClientKey data with
  | none => badRequest
  | some clientKey => successMsg clientKey

/-- The success response of the `WebSocketServer.js` variant: bare `\n`
line terminators and no terminating blank line. -/
def successMsgAlt (clientKey : List Nat) : List Nat :=
  strCodes "HTTP/1.1 101 Switching Protocols\nUpgrade: websocket\nConnection: Upgrade\nSec-WebSocket-Accept: "
    ++ generateServerKey clientKey

/-- `#generateHandshakeMsg` of the `WebSocketServer.js` variant. -/
def generateHandshakeMsgAlt (data : List Nat) : List Nat :=
  match findClientKey data with
  | none => badRequest
  | some clientKey => successMsgAlt clientKey

/-! ### The frame codec (`#parseMessage` and `#encodeReply`) -/

/-- `#parseMessage(buffer)`: read the 7-bit length from byte 1, take
the 4-byte masking key at bytes 2..5, and rebuild the payload one
character per byte via `bytes[i] ^ bytes[maskStart + ((i - dataStart) % 4)]`.
Out-of-range reads are `undefined`, coerced to 0 by `^`. -/
def parseMessage (bytes : List Nat) : List Nat :=
  let length := (bytes.getD 1 0) &&& 127
  (List.range length).map
    (fun i => (bytes.getD (6 + i) 0) ^^^ (bytes.getD (2 + i % 4) 0))

/-- One hexadecimal digit as JSON.stringify prints it (lower case). -/
def hexDigit (n : Nat) : Nat :=
  if n < 10 then 48 + n else 87 + n

/-- Escaping of one code unit inside a JSON string literal, as
`JSON.stringify` performs it. -/
def escapeUnit (c : Nat) : List Nat :=
  if c = 34 then [92, 34]
  else if c = 92 then [92, 92]
  else if c = 8 then [92, 98]
  else if c = 9 then [92, 116]
  else if c = 10 then [92, 110]
  else if c = 12 then [92, 102]
  else if c = 13 then [92, 114]
  else if c < 32 then
    [92, 117, 48, 48, hexDigit (c / 16), hexDigit (c % 16)]
  else if 55296 ≤ c ∧ c ≤ 57343 then
    [92, 117, hexDigit (c / 4096 % 16), hexDigit (c / 256 % 16),
     hexDigit (c / 16 % 16), hexDigit (c % 16)]
  else [c]

/-- `JSON.stringify` of a string value: the escaped code units wrapped
in double quotes.  Lone surrogates are `\u`-escaped (well-formed
`JSON.stringify`), so the output has no surrogate code units. -/
def jsonStringify (s : List Nat) : List Nat :=
  34 :: s.flatMap escapeUnit ++ [34]

/-- UTF-8 encoding of a code-unit sequence, as `Buffer.byteLength` /
`Buffer.prototype.write` perform it: surrogate pairs combine into one
4-byte sequence, lone surrogates become the replacement character. -/
def utf8Enc : List Nat → List Nat
  | [] => []
  | c :: rest =>
      if c < 128 then c :: utf8Enc rest
      else if c < 2048 then (192 + c / 64) :: (128 + c % 64) :: utf8Enc rest
      else if c < 55296 ∨ 57343 < c then
        (224 + c / 4096) :: (128 + c / 64 % 64) :: (128 + c % 64) :: utf8Enc rest
      else if c ≤ 56319 then
        match rest with
        | c2 :: rest2 =>
            if 56320 ≤ c2 ∧ c2 ≤ 57343 then
              let cp := 65536 + (c - 55296) * 1024 + (c2 - 56320)
              (240 + cp / 262144) :: (128 + cp / 4096 % 64) :: (128 + cp / 64 % 64)
                :: (128 + cp % 64) :: utf8Enc rest2
            else 239 :: 191 :: 189 :: utf8Enc (c2 :: rest2)
        | [] => [239, 191, 189]
      else 239 :: 191 :: 189 :: utf8Enc rest

/-- `Buffer.prototype.write` / `writeUInt8` / `writeUInt16BE`: write
`bs` into `buf` starting at `off`, truncated at the end of the buffer. -/
def bufWrite (buf : List Nat) (off : Nat) (bs : List Nat) : List Nat :=
  buf.take off ++ bs.take (buf.length - off) ++ buf.drop (off + bs.length)

/-- `#encodeReply(string)`: JSON-stringify the payload, pick the short
(< 126) or 16-bit extended length form, allocate a zeroed buffer, and
write the header bytes and the UTF-8 payload into it. -/
def encodeReply (s : List Nat) : List Nat :=
  let json := jsonStringify s
  let jsonByteLength := (utf8Enc json).length
  let lengthByteCount := if jsonByteLength < 126 then 0 else 2
  let payloadLength := if jsonByteLength < 126 then jsonByteLength else 126
  let buffer0 := List.replicate (2 + lengthByteCount + jsonByteLength) 0
  let buffer1 := bufWrite buffer0 0 [129]
  let buffer2 := bufWrite buffer1 1 [payloadLength]
  let buffer3 :=
    if jsonByteLength < 126 then buffer2
    else bufWrite buffer2 2 [jsonByteLength / 256 % 256, jsonByteLength % 256]
  bufWrite buffer3 (2 + lengthByteCount) (utf8Enc json)

/-- The fixed reply payload the dispatcher encodes for every data
frame. -/
def helloReply : List Nat := strCodes "Hello from a WebSocket Server!"

/-- The client-side frame construction described by the spec round-trip
property: `0x81`, mask bit plus 7-bit length, the 4 mask-key bytes,
then the payload XOR-masked cyclically with the key. -/
def clientFrame (mask payload : List Nat) : List Nat :=
  129 :: (128 ||| payload.length) :: mask
    ++ (List.range payload.length).map
        (fun i => (payload.getD i 0) ^^^ (mask.getD (i % 4) 0))

/-! ### Helper lemmas -/

/-- The `forEach`-with-flag idiom is `List.any`. -/
theorem foldl_flag (p : List Nat → Bool) (ls : List (List Nat)) (b : Bool) :
    ls.foldl (fun acc l => if p l then true else acc) b = (b || ls.any p) := by
  induction ls generalizing b with
  | nil => simp
  | cons h t ih =>
      rw [List.foldl_cons, ih]
      cases hp : p h <;> simp [hp]

/-- The `forEach`-with-overwrite idiom keeps the last matching element:
the fold returns the extract of the last line satisfying `q`, or the
initial accumulator when no line does. -/
theorem foldl_key (q : List Nat → Bool) (ext : List Nat → List Nat)
    (ls : List (List Nat)) (acc : Option (List Nat)) :
    ls.foldl (fun a l => if q l then some (ext l) else a) acc =
      match (ls.filter q).getLast? with
      | some l => some (ext l)
      | none => acc := by
  induction ls using List.reverseRecOn with
  | nil => simp
  | append_singleton l x ih =>
      cases hq : q x
      · simp [List.foldl_append, List.filter_append, List.filter_cons, hq, ih]
      · simp [List.foldl_append, List.filter_append, List.filter_cons, hq,
          List.getLast?_concat]

/-- A 101 response is never the literal 400 response (part_000
variant): the strings differ at index 9. -/
theorem successMsg_ne_badRequest (k : List Nat) : successMsg k ≠ badRequest := by
  intro h
  have h9 := congrArg (fun l => l.getD 9 0) h
  simp only [successMsg, badRequest, List.append_assoc] at h9
  rw [List.getD_append _ _ _ _ (by decide)] at h9
  revert h9
  decide

/-- A 101 response is never the literal 400 response
(`WebSocketServer.js` variant). -/
theorem successMsgAlt_ne_badRequest (k : List Nat) : successMsgAlt k ≠ badRequest := by
  intro h
  have h9 := congrArg (fun l => l.getD 9 0) h
  simp only [successMsgAlt, badRequest, List.append_assoc] at h9
  rw [List.getD_append _ _ _ _ (by decide)] at h9
  revert h9
  decide

/-- `findClientKey` is the key of the last matching header line. -/
theorem findClientKey_eq (data : List Nat) :
    findClientKey data =
      match ((splitOnNl data).filter (fun l => startsWithL keyPat l)).getLast? with
      | some line => some (extractKey line)
      | none => none :=
  foldl_key _ _ _ _

/-! ### Claim theorems -/

set_option maxRecDepth 40000 in
/-- Claim C1: for the fixed input handshake key
`dGhlIHNhbXBsZSBub25jZQ==`, the accept-key derivation (base64 of the
SHA-1 digest of the key concatenated with the protocol GUID) returns
exactly the canonical test vector `s3pPLMBiTxaQ9kYGzzhZRbK+xOo=`. -/
theorem acceptKey_vector :
    generateServerKey (strCodes "dGhlIHNhbXBsZSBub25jZQ==")
      = strCodes "s3pPLMBiTxaQ9kYGzzhZRbK+xOo=" := by
  decide

set_option maxRecDepth 40000 in
/-- Claim C2 evaluation: on an upgrade request carrying the canonical
handshake key, the part_000 negotiator returns the full CRLF-terminated
101 response ending in a blank line, as the claim requires, while the
`WebSocketServer.js` negotiator returns bare `\n` separators and no
terminating blank line, contradicting the claim. -/
theorem handshake_variants_eval :
    generateHandshakeMsg
        (strCodes "GET / HTTP/1.1\r\nUpgrade: websocket\r\nSec-WebSocket-Key: dGhlIHNhbXBsZSBub25jZQ==\r\n\r\n")
      = strCodes "HTTP/1.1 101 Switching Protocols\r\nUpgrade: websocket\r\nConnection: Upgrade\r\nSec-WebSocket-Accept: s3pPLMBiTxaQ9kYGzzhZRbK+xOo=\r\n\r\n" ∧
    generateHandshakeMsgAlt
        (strCodes "GET / HTTP/1.1\r\nUpgrade: websocket\r\nSec-WebSocket-Key: dGhlIHNhbXBsZSBub25jZQ==\r\n\r\n")
      = strCodes "HTTP/1.1 101 Switching Protocols\nUpgrade: websocket\nConnection: Upgrade\nSec-WebSocket-Accept: s3pPLMBiTxaQ9kYGzzhZRbK+xOo=" := by
  constructor <;> decide

/-- Claim C3: the negotiator (either variant) returns the literal
string `HTTP/1.1 400 Bad Request` exactly when no header line starts
with `Sec-WebSocket-Key:`, so the missing key is the only failure
mode. -/
theorem handshake_badRequest_iff (data : List Nat) :
    (generateHandshakeMsg data = badRequest ↔
      ∀ line ∈ splitOnNl data, startsWithL keyPat line = false) ∧
    (generateHandshakeMsgAlt data = badRequest ↔
      ∀ line ∈ splitOnNl data, startsWithL keyPat line = false) := by
  have hnone : findClientKey data = none ↔
      ∀ line ∈ splitOnNl data, startsWithL keyPat line = false := by
    rw [findClientKey_eq]
    cases hl : ((splitOnNl data).filter (fun l => startsWithL keyPat l)).getLast? with
    | none =>
        rw [List.getLast?_eq_none_iff, List.filter_eq_nil_iff] at hl
        simpa using hl
    | some line =>
        have hmem : line ∈ (splitOnNl data).filter (fun l => startsWithL keyPat l) :=
          List.mem_of_mem_getLast? hl
        rw [List.mem_filter] at hmem
        simp only [Option.some_ne_none, false_iff]
        intro hall
        exact absurd (hall line hmem.1) (by simp [hmem.2])
  constructor
  · rw [generateHandshakeMsg]
    cases hk : findClientKey data with
    | none => simpa [hk] using hnone.mp hk
    | some k =>
        simp only [successMsg_ne_badRequest k, false_iff]
        intro hall
        exact absurd (hnone.mpr hall) (by simp [hk])
  · rw [generateHandshakeMsgAlt]
    cases hk : findClientKey data with
    | none => simpa [hk] using hnone.mp hk
    | some k =>
        simp only [successMsgAlt_ne_badRequest k, false_iff]
        intro hall
        exact absurd (hnone.mpr hall) (by simp [hk])

/-- Claim C8 evaluation: the chunk `[129, 133, 1, 2, 3, 4, 104, 105]`
declares a 5-byte payload but carries only 2 bytes after the 6-byte
header; `#parseMessage` does not fail: it returns a full 5-character
string, fabricating the missing bytes from out-of-range reads (JS
`undefined`, coerced to 0 by `^`, so the tail is the mask key
itself). -/
theorem parseMessage_overrun_eval :
    parseMessage [129, 133, 1, 2, 3, 4, 104, 105] = [105, 107, 3, 4, 1] ∧
    (parseMessage [129, 133, 1, 2, 3, 4, 104, 105]).length = 5 := by
  decide

/-- Claim C9: the codec is not self-inverse.  `#encodeReply` emits an
unmasked frame with the payload at offset 2, while `#parseMessage`
unconditionally treats bytes 2..5 as a mask key and reads the payload
from offset 6, so decoding the encoding of the fixed reply payload
does not return its serialization. -/
theorem decode_encode_not_inverse :
    parseMessage (encodeReply helloReply) ≠ jsonStringify helloReply := by
  decide

/-- Claim C10: the negotiator derives the accept key from the last
header line starting with `Sec-WebSocket-Key:` — each later match
overwrites the earlier one — and returns the 400 response only when
there is no match. -/
theorem lastKey_wins (data : List Nat) :
    generateHandshakeMsg data =
      match ((splitOnNl data).filter (fun l => startsWithL keyPat l)).getLast? with
      | some line => successMsg (extractKey line)
      | none => badRequest := by
  rw [generateHandshakeMsg, findClientKey_eq]
  cases ((splitOnNl data).filter (fun l => startsWithL keyPat l)).getLast? <;> rfl

/-- Claim C4: every chunk is classified into exactly one of the three
categories, with no error case: UpgradeRequest when the first
newline-delimited line contains `HTTP/1.1` and some line contains
`Upgrade: websocket` (case-sensitive), PlainHttp when the first line
contains `HTTP/1.1` but no line carries the upgrade header, DataFrame
when the first line does not contain `HTTP/1.1`. -/
theorem classify_cases (data : List Nat) :
    (classify data = ChunkClass.UpgradeRequest ↔
      hasSub (strCodes "HTTP/1.1") ((splitOnNl data).getD 0 []) = true ∧
      ∃ line ∈ splitOnNl data, hasSub (strCodes "Upgrade: websocket") line = true) ∧
    (classify data = ChunkClass.PlainHttp ↔
      hasSub (strCodes "HTTP/1.1") ((splitOnNl data).getD 0 []) = true ∧
      ¬ ∃ line ∈ splitOnNl data, hasSub (strCodes "Upgrade: websocket") line = true) ∧
    (classify data = ChunkClass.DataFrame ↔
      ¬ hasSub (strCodes "HTTP/1.1") ((splitOnNl data).getD 0 []) = true) := by
  have hhteq : isHttp data = hasSub (strCodes "HTTP/1.1") ((splitOnNl data).getD 0 []) := rfl
  have hu : isSocketUpgradeRequest data = true ↔
      ∃ line ∈ splitOnNl data, hasSub (strCodes "Upgrade: websocket") line = true := by
    rw [isSocketUpgradeRequest, foldl_flag]
    simp [List.any_eq_true]
  rw [classify, hhteq]
  by_cases hh : hasSub (strCodes "HTTP/1.1") ((splitOnNl data).getD 0 []) = true
  · rw [if_pos hh]
    by_cases hup : isSocketUpgradeRequest data = true
    · rw [if_pos hup]
      exact ⟨⟨fun _ => ⟨hh, hu.mp hup⟩, fun _ => rfl⟩,
        ⟨fun hc => ChunkClass.noConfusion hc, fun hx => absurd (hu.mp hup) hx.2⟩,
        ⟨fun hc => ChunkClass.noConfusion hc, fun hx => absurd hh hx⟩⟩
    · rw [if_neg hup]
      have hne : ¬ ∃ line ∈ splitOnNl data, hasSub (strCodes "Upgrade: websocket") line = true :=
        fun hx => hup (hu.mpr hx)
      exact ⟨⟨fun hc => ChunkClass.noConfusion hc, fun hx => absurd hx.2 hne⟩,
        ⟨fun _ => ⟨hh, hne⟩, fun _ => rfl⟩,
        ⟨fun hc => ChunkClass.noConfusion hc, fun hx => absurd hh hx⟩⟩
  · rw [if_neg hh]
    exact ⟨⟨fun hc => ChunkClass.noConfusion hc, fun hx => absurd hx.1 hh⟩,
      ⟨fun hc => ChunkClass.noConfusion hc, fun hx => absurd hx.1 hh⟩,
      ⟨fun _ => hh, fun _ => rfl⟩⟩

/-- Claim C5: for every chunk holding at least `6 + L` bytes, where `L`
is the low 7 bits of byte 1, decode returns exactly `L` code units and
unit `i` is byte `6 + i` XORed with mask-key byte `2 + (i mod 4)`. -/
theorem parseMessage_spec (chunk : List Nat)
    (h : 6 + ((chunk.getD 1 0) &&& 127) ≤ chunk.length) :
    (parseMessage chunk).length = (chunk.getD 1 0) &&& 127 ∧
    ∀ i, ∀ hi : i < (chunk.getD 1 0) &&& 127,
      (parseMessage chunk).getD i 0 =
        (chunk.get ⟨6 + i, by omega⟩) ^^^ (chunk.get ⟨2 + i % 4, by omega⟩) := by
  refine ⟨by simp [parseMessage], ?_⟩
  intro i hi
  have h6 : 6 + i < chunk.length := by omega
  have h2 : 2 + i % 4 < chunk.length := by omega
  simp only [parseMessage]
  rw [List.getD_eq_getElem _ _ (by simpa using hi), List.getElem_map, List.getElem_range,
    List.getD_eq_getElem _ _ h6, List.getD_eq_getElem _ _ h2]
  simp [List.get_eq_getElem]

/-- Claim C5 witness: the payload-extraction law applied to a concrete
11-byte chunk with declared length 5. -/
theorem parseMessage_spec_witness :
    (parseMessage [129, 133, 1, 2, 3, 4, 10, 20, 30, 40, 50]).length = 5 ∧
    (parseMessage [129, 133, 1, 2, 3, 4, 10, 20, 30, 40, 50]).getD 0 0 =
      ([129, 133, 1, 2, 3, 4, 10, 20, 30, 40, 50] : List Nat).get ⟨6, by decide⟩ ^^^
      ([129, 133, 1, 2, 3, 4, 10, 20, 30, 40, 50] : List Nat).get ⟨2, by decide⟩ :=
  ⟨(parseMessage_spec _ (by decide)).1,
   (parseMessage_spec _ (by decide)).2 0 (by decide)⟩

/-- Setting the mask bit over a 7-bit length and masking it back off
recovers the length. -/
theorem or_and_127 (L : Nat) (h : L < 128) : (128 ||| L) &&& 127 = L := by
  apply Nat.eq_of_testBit_eq
  intro i
  rw [Nat.testBit_land, Nat.testBit_lor]
  have h127 : Nat.testBit 127 i = decide (i < 7) := by
    have := Nat.testBit_two_pow_sub_one 7 i
    norm_num at this
    exact this
  have h128 : Nat.testBit 128 i = decide (7 = i) := by
    have := @Nat.testBit_two_pow 7 i
    norm_num at this
    exact this
  by_cases hi : i < 7
  · have h7i : ¬(7 = i) := by omega
    simp [h127, h128, hi, h7i]
  · have h2i : (128 : Nat) ≤ 2 ^ i := by
      calc (128 : Nat) = 2 ^ 7 := by norm_num
        _ ≤ 2 ^ i := Nat.pow_le_pow_right (by norm_num) (by omega)
    have hLb : L.testBit i = false := Nat.testBit_lt_two_pow (lt_of_lt_of_le h h2i)
    simp [h127, h128, hi, hLb]

/-- Claim C6: for every payload of fewer than 126 code units and every
4-byte mask key, building the client frame (0x81, mask bit with the
length, the mask key, the cyclically XOR-masked payload) and decoding
it with `#parseMessage` reproduces the original payload exactly. -/
theorem codec_roundTrip (mask payload : List Nat) (hm : mask.length = 4)
    (hp : payload.length < 126) :
    parseMessage (clientFrame mask payload) = payload := by
  have hmasked :
      clientFrame mask payload =
        [129, 128 ||| payload.length] ++ (mask ++ (List.range payload.length).map
          (fun i => (payload.getD i 0) ^^^ (mask.getD (i % 4) 0))) := rfl
  have hb1 : (clientFrame mask payload).getD 1 0 = 128 ||| payload.length := rfl
  have hL : (clientFrame mask payload).getD 1 0 &&& 127 = payload.length := by
    rw [hb1, or_and_127 _ (by omega)]
  apply List.ext_getElem
  · simp only [parseMessage, List.length_map, List.length_range]
    exact hL
  · intro i h1 h2
    have e6 : (clientFrame mask payload).getD (6 + i) 0
        = (payload.getD i 0) ^^^ (mask.getD (i % 4) 0) := by
      rw [hmasked, List.getD_append_right _ _ _ _ (by simp; omega),
        show 6 + i - ([129, 128 ||| payload.length] : List Nat).length = 4 + i by simp; omega,
        List.getD_append_right _ _ _ _ (by omega),
        show 4 + i - mask.length = i by omega,
        List.getD_eq_getElem _ _ (by simpa using h2), List.getElem_map, List.getElem_range]
    have e2 : (clientFrame mask payload).getD (2 + i % 4) 0 = mask.getD (i % 4) 0 := by
      rw [hmasked, List.getD_append_right _ _ _ _ (by simp),
        show 2 + i % 4 - ([129, 128 ||| payload.length] : List Nat).length = i % 4 by simp,
        List.getD_append _ _ _ _ (by omega)]
    simp only [parseMessage]
    rw [List.getElem_map, List.getElem_range, e6, e2, Nat.xor_cancel_right,
      List.getD_eq_getElem _ _ h2]

/-- Claim C6 witness: the round trip at a concrete mask key and
payload. -/
theorem codec_roundTrip_witness :
    parseMessage (clientFrame [1, 2, 3, 4] (strCodes "hi")) = strCodes "hi" :=
  codec_roundTrip [1, 2, 3, 4] (strCodes "hi") (by decide) (by decide)

/-- Writing below the first buffer cell replaces it. -/
theorem bufWrite_head (b0 a : Nat) (rest : List Nat) :
    bufWrite (b0 :: rest) 0 [a] = a :: rest := by
  simp [bufWrite]

/-- Writing at a positive offset skips the head cell. -/
theorem bufWrite_cons_succ (c : Nat) (l : List Nat) (n : Nat) (bs : List Nat) :
    bufWrite (c :: l) (n + 1) bs = c :: bufWrite l n bs := by
  show (c :: l).take (n + 1) ++ bs.take ((c :: l).length - (n + 1))
      ++ (c :: l).drop (n + 1 + bs.length) = _
  rw [List.take_succ_cons, show n + 1 + bs.length = (n + bs.length) + 1 by omega,
    List.drop_succ_cons]
  simp [bufWrite, Nat.succ_sub_succ]

/-- Writing two bytes at the head replaces the first two cells. -/
theorem bufWrite_head₂ (b0 b1 a b : Nat) (rest : List Nat) :
    bufWrite (b0 :: b1 :: rest) 0 [a, b] = a :: b :: rest := by
  simp [bufWrite]

/-- Writing a list of exactly the buffer size replaces the whole
buffer. -/
theorem bufWrite_exact (j : List Nat) :
    bufWrite (List.replicate j.length 0) 0 j = j := by
  simp [bufWrite]

/-- Offset-1 write, literal form. -/
theorem bufWrite_one (c : Nat) (l bs : List Nat) :
    bufWrite (c :: l) 1 bs = c :: bufWrite l 0 bs :=
  bufWrite_cons_succ c l 0 bs

/-- Offset-2 write, literal form. -/
theorem bufWrite_two (c0 c1 : Nat) (l bs : List Nat) :
    bufWrite (c0 :: c1 :: l) 2 bs = c0 :: c1 :: bufWrite l 0 bs :=
  (bufWrite_cons_succ c0 (c1 :: l) 1 bs).trans
    (congrArg (fun t => c0 :: t) (bufWrite_one c1 l bs))

/-- Offset-4 write, literal form. -/
theorem bufWrite_four (c0 c1 c2 c3 : Nat) (l bs : List Nat) :
    bufWrite (c0 :: c1 :: c2 :: c3 :: l) 4 bs = c0 :: c1 :: c2 :: c3 :: bufWrite l 0 bs :=
  (bufWrite_cons_succ c0 (c1 :: c2 :: c3 :: l) 3 bs).trans
    (congrArg (fun t => c0 :: t)
      ((bufWrite_cons_succ c1 (c2 :: c3 :: l) 2 bs).trans
        (congrArg (fun t => c1 :: t) (bufWrite_two c2 c3 l bs))))

/-- Claim C7: `#encodeReply` emits `0x81`, then the payload byte length
`L` when `L < 126` with the serialized payload at offset 2, and
otherwise (for `L` up to 65535) the marker 126 followed by `L` as a
16-bit big-endian integer with the payload at offset 4.  The payload
measured is the UTF-8 serialization of the JSON-quoted input. -/
theorem encodeReply_layout (s : List Nat) :
    ((utf8Enc (jsonStringify s)).length < 126 →
      encodeReply s =
        129 :: (utf8Enc (jsonStringify s)).length :: utf8Enc (jsonStringify s)) ∧
    (126 ≤ (utf8Enc (jsonStringify s)).length →
      (utf8Enc (jsonStringify s)).length ≤ 65535 →
      encodeReply s =
        129 :: 126 :: ((utf8Enc (jsonStringify s)).length / 256)
          :: ((utf8Enc (jsonStringify s)).length % 256)
          :: utf8Enc (jsonStringify s)) := by
  constructor
  · intro h
    simp only [encodeReply]
    rw [if_pos h, if_pos h, if_pos h]
    generalize utf8Enc (jsonStringify s) = j
    rw [show 2 + 0 + j.length = j.length + 1 + 1 by omega, List.replicate_succ,
      List.replicate_succ, bufWrite_head, bufWrite_one, bufWrite_head,
      show (2 + 0 : Nat) = 2 from rfl, bufWrite_two, bufWrite_exact]
  · intro h1 h2
    have h : ¬ (utf8Enc (jsonStringify s)).length < 126 := by omega
    simp only [encodeReply]
    rw [if_neg h, if_neg h, if_neg h]
    have hdiv : (utf8Enc (jsonStringify s)).length / 256 % 256
        = (utf8Enc (jsonStringify s)).length / 256 :=
      Nat.mod_eq_of_lt (by omega)
    rw [hdiv]
    generalize utf8Enc (jsonStringify s) = j
    rw [show 2 + 2 + j.length = j.length + 1 + 1 + 1 + 1 by omega, List.replicate_succ,
      List.replicate_succ, List.replicate_succ, List.replicate_succ, bufWrite_head,
      bufWrite_one, bufWrite_head, bufWrite_two, bufWrite_head₂,
      show (2 + 2 : Nat) = 4 from rfl, bufWrite_four, bufWrite_exact]

set_option maxRecDepth 40000 in
/-- Claim C7 witness: the short form at the one-character payload `a`
(serialized as `"a"`, 3 bytes) and the extended form at a 124-character
payload (serialized length 126). -/
theorem encodeReply_layout_witness :
    encodeReply (strCodes "a") = [129, 3, 34, 97, 34] ∧
    encodeReply (List.replicate 124 97) =
      129 :: 126 :: 0 :: 126 :: utf8Enc (jsonStringify (List.replicate 124 97)) :=
  ⟨(encodeReply_layout (strCodes "a")).1 (by decide),
   (encodeReply_layout (List.replicate 124 97)).2 (by decide) (by decide)⟩

end WebSocketServer
